import Mathlib

/-!
Shallow embedding of the qasphere-csv package (src/qascsv.go): a
validation-and-projection engine that accumulates test-case records and
exports them as a CSV grid.  Definitions are translated from the Go source;
the validation functions embed the semantics of the go-playground/validator
v10 struct tags declared on the types in src/qascsv.go, and the CSV/JSON
encoders embed the behaviour of Go's encoding/csv and encoding/json on the
concrete value shapes this package feeds them.
-/

/-- Priority is a string type in the source (type Priority string). -/
abbrev Priority := String

/-- Requirement mirrors the Go struct Requirement (Title, URL). -/
structure Requirement where
  Title : String
  URL : String
deriving Repr, DecidableEq

/-- Link mirrors the Go struct Link (Title, URL). -/
structure Link where
  Title : String
  URL : String
deriving Repr, DecidableEq

/-- File mirrors the Go struct File (Name, ID, URL, MimeType, Size int64). -/
structure File where
  Name : String
  ID : String
  URL : String
  MimeType : String
  Size : Int
deriving Repr, DecidableEq

/-- Step mirrors the Go struct Step (Action, Expected). -/
structure Step where
  Action : String
  Expected : String
deriving Repr, DecidableEq

/-- TestCase mirrors the Go struct TestCase, fields in declaration order. -/
structure TestCase where
  Title : String
  LegacyID : String
  Folder : List String
  Priority : Priority
  Tags : List String
  Preconditions : String
  Steps : List Step
  Requirement : Option Requirement
  Files : List File
  Links : List Link
  Draft : Bool
deriving Repr, DecidableEq

/-- A single field error produced by the validator: the field path within
the record and the tag of the rule that failed. -/
structure Violation where
  field : String
  tag : String
deriving Repr, DecidableEq

/-- Evaluates a field's validation tags in order, stopping at the first
failing tag, as go-playground/validator does per field. -/
def firstFail (name : String) : List (String × Bool) → List Violation
  | [] => []
  | (tag, ok) :: rest => if ok then firstFail name rest else [⟨name, tag⟩]

/-- Boolean leading-segment test on character lists. -/
def charsStartWith : List Char → List Char → Bool
  | [], _ => true
  | _ :: _, [] => false
  | a :: as, b :: bs => a = b && charsStartWith as bs

/-- Host portion of a URL remainder (text after the scheme separator, up to
the first path, query or fragment delimiter) is non-empty. -/
def hostNonempty (rest : List Char) : Bool :=
  !(rest.takeWhile (fun c => c != '/' && c != '?' && c != '#')).isEmpty

/-- Embedding of the validator v10 http_url baked-in rule: the (lowercased)
value must parse with scheme http or https and a non-empty host. -/
def isHttpURL (s : String) : Bool :=
  let ls := s.data.map Char.toLower
  if charsStartWith "http://".data ls then hostNonempty (ls.drop 7)
  else if charsStartWith "https://".data ls then hostNonempty (ls.drop 8)
  else false

/-- Validator tags of Requirement: Title required_without=URL,max=255 and
URL required_without=Title,omitempty,http_url,max=255. -/
def validateRequirement (ns : String) (r : Requirement) : List Violation :=
  firstFail (ns ++ ".Title")
    [("required_without", !(r.Title == "" && r.URL == "")),
     ("max", decide (r.Title.data.length ≤ 255))]
  ++ (if r.URL == "" then
        firstFail (ns ++ ".URL") [("required_without", r.Title != "")]
      else
        firstFail (ns ++ ".URL")
          [("http_url", isHttpURL r.URL), ("max", decide (r.URL.data.length ≤ 255))])

/-- Validator tags of Link: Title required,max=255 and URL
required,http_url,max=255. -/
def validateLink (ns : String) (l : Link) : List Violation :=
  firstFail (ns ++ ".Title")
    [("required", l.Title != ""), ("max", decide (l.Title.data.length ≤ 255))]
  ++ firstFail (ns ++ ".URL")
    [("required", l.URL != ""), ("http_url", isHttpURL l.URL),
     ("max", decide (l.URL.data.length ≤ 255))]

/-- Validator tags of File: Name required, ID required_without=URL, URL
required_without=ID,omitempty,http_url. -/
def validateFile (ns : String) (f : File) : List Violation :=
  firstFail (ns ++ ".Name") [("required", f.Name != "")]
  ++ firstFail (ns ++ ".ID") [("required_without", !(f.ID == "" && f.URL == ""))]
  ++ (if f.URL == "" then
        firstFail (ns ++ ".URL") [("required_without", f.ID != "")]
      else
        firstFail (ns ++ ".URL") [("http_url", isHttpURL f.URL)])

/-- Runs a per-element validator over a slice being dived into, naming each
element by its index as validator v10 does. -/
def idxViolations {α : Type} (pre : String) (g : String → α → List Violation) :
    Nat → List α → List Violation
  | _, [] => []
  | i, x :: xs =>
    g (pre ++ "[" ++ toString i ++ "]") x ++ idxViolations pre g (i + 1) xs

/-- Embedding of (q *QASphereCSV) validateTestCase: validator.Struct over
the TestCase tags, collecting one violation per failing field. -/
def validateTestCase (tc : TestCase) : List Violation :=
  firstFail "Title"
    [("required", tc.Title != ""), ("max", decide (tc.Title.data.length ≤ 255))]
  ++ firstFail "LegacyID" [("max", decide (tc.LegacyID.data.length ≤ 255))]
  ++ (if tc.Folder.isEmpty then [⟨"Folder", "min"⟩]
      else idxViolations "Folder"
        (fun n seg => firstFail n
          [("required", seg != ""), ("max", decide (seg.data.length ≤ 127)),
           ("excludesall", !(seg.data.contains '/'))]) 0 tc.Folder)
  ++ firstFail "Priority"
    [("required", tc.Priority != ""),
     ("oneof", tc.Priority == "low" || tc.Priority == "medium" || tc.Priority == "high")]
  ++ idxViolations "Tags"
    (fun n t => firstFail n
      [("required", t != ""), ("max", decide (t.data.length ≤ 255))]) 0 tc.Tags
  ++ (match tc.Requirement with
      | none => []
      | some r => validateRequirement "Requirement" r)
  ++ idxViolations "Files" validateFile 0 tc.Files
  ++ idxViolations "Links" validateLink 0 tc.Links

/-- Accumulator state of the engine: struct QASphereCSV.  The Go map is
modelled as an association list in key-creation order; Go map iteration
order is abstracted by the iter parameter of the export functions. -/
structure QASphereCSV where
  folderTCaseMap : List (String × List TestCase)
  numTCases : Nat
  maxSteps : Nat
deriving Repr, DecidableEq

/-- NewQASphereCSV: fresh engine with an empty map and zero counters. -/
def NewQASphereCSV : QASphereCSV := ⟨[], 0, 0⟩

/-- Folder path key: strings.Join(tc.Folder, "/"). -/
def folderPath (tc : TestCase) : String := String.intercalate "/" tc.Folder

/-- Appends a record to the list stored under key, creating the entry if it
is absent (the Go map assignment in addTCase). -/
def insertTC : List (String × List TestCase) → String → TestCase →
    List (String × List TestCase)
  | [], key, tc => [(key, [tc])]
  | (k, l) :: rest, key, tc =>
    if k = key then (k, l ++ [tc]) :: rest else (k, l) :: insertTC rest key tc

/-- Embedding of addTCase: store under the folder-path key, bump the record
counter, raise maxSteps when this record has more steps. -/
def addTCase (q : QASphereCSV) (tc : TestCase) : QASphereCSV :=
  ⟨insertTC q.folderTCaseMap (folderPath tc) tc,
   q.numTCases + 1,
   if tc.Steps.length > q.maxSteps then tc.Steps.length else q.maxSteps⟩

/-- Embedding of AddTestCase: returns the state after the call and the
validation error, if any (the receiver is unchanged on error). -/
def AddTestCase (q : QASphereCSV) (tc : TestCase) :
    QASphereCSV × Option (List Violation) :=
  match validateTestCase tc with
  | [] => (addTCase q tc, none)
  | errs => (q, some errs)

/-- The multierror loop of AddTestCases: each invalid record contributes
its violations tagged with its index in the batch. -/
def batchViolations : Nat → List TestCase → List (Nat × List Violation)
  | _, [] => []
  | i, tc :: rest =>
    (match validateTestCase tc with
     | [] => []
     | errs => [(i, errs)]) ++ batchViolations (i + 1) rest

/-- Embedding of AddTestCases: validate every record first; only when the
whole batch is clean are the records committed, else the state is returned
unchanged together with the aggregated error. -/
def AddTestCases (q : QASphereCSV) (tcs : List TestCase) :
    QASphereCSV × Option (List (Nat × List Violation)) :=
  match batchViolations 0 tcs with
  | [] => (tcs.foldl addTCase q, none)
  | errs => (q, some errs)

/-- Lexicographic (code point, equivalently UTF-8 byte) order on character
lists, the order slices.Sort uses on Go strings. -/
def charsLe : List Char → List Char → Bool
  | [], _ => true
  | _ :: _, [] => false
  | a :: as, b :: bs => if a = b then charsLe as bs else Nat.blt a.toNat b.toNat

/-- Byte-lexicographic string comparison (Go string ordering). -/
def strLe (a b : String) : Bool := charsLe a.data b.data

/-- Sorting step of getFolders, abstracted over the key enumeration that Go
map iteration produces: slices.Sort of the keys. -/
def getFoldersOf (keys : List String) : List String :=
  List.insertionSort (fun a b => strLe a b = true) keys

/-- Embedding of getFolders: collect map keys and sort them. -/
def getFolders (q : QASphereCSV) : List String :=
  getFoldersOf (q.folderTCaseMap.map Prod.fst)

/-- Map indexing q.folderTCaseMap[f] (empty for an absent key). -/
def lookupFolder (m : List (String × List TestCase)) (f : String) : List TestCase :=
  match m.find? (fun e => e.1 == f) with
  | some e => e.2
  | none => []

/-- The fixed header column names (var staticColumns). -/
def staticColumns : List String :=
  ["Folder", "Name", "Legacy ID", "Draft", "Priority", "Tags", "Requirements",
   "Links", "Files", "Preconditions"]

/-- Lower-case hexadecimal digit, as Go's encoding/json emits. -/
def hexDigit (n : Nat) : String :=
  String.singleton (("0123456789abcdef".data).getD n '0')

/-- Go encoding/json string-character escaping (HTML escaping on, as in
json.Marshal): quote, backslash, newline, carriage return, tab, the HTML
characters, other control characters, and U+2028/U+2029. -/
def jsonEscapeChar (c : Char) : String :=
  if c.toNat = 34 then "\\\""
  else if c.toNat = 92 then "\\\\"
  else if c = '\n' then "\\n"
  else if c = '\r' then "\\r"
  else if c = '\t' then "\\t"
  else if c = '<' then "\\u003c"
  else if c = '>' then "\\u003e"
  else if c = '&' then "\\u0026"
  else if c.toNat < 32 then "\\u00" ++ hexDigit (c.toNat / 16) ++ hexDigit (c.toNat % 16)
  else if c.toNat = 8232 then "\\u2028"
  else if c.toNat = 8233 then "\\u2029"
  else String.singleton c

/-- Go encoding/json rendering of a string value. -/
def jsonQuote (s : String) : String :=
  "\"" ++ String.join (s.data.map jsonEscapeChar) ++ "\""

/-- Go encoding/json rendering of one File value: fields in struct-tag
order file_name, id (omitempty), url (omitempty), mime_type, size. -/
def fileJSON (f : File) : String :=
  "\x7b\"file_name\":" ++ jsonQuote f.Name
  ++ (if f.ID == "" then "" else ",\"id\":" ++ jsonQuote f.ID)
  ++ (if f.URL == "" then "" else ",\"url\":" ++ jsonQuote f.URL)
  ++ ",\"mime_type\":" ++ jsonQuote f.MimeType
  ++ ",\"size\":" ++ toString f.Size ++ "\x7d"

/-- Go encoding/json rendering of a []File value. -/
def filesJSON (fs : List File) : String :=
  "[" ++ String.intercalate "," (fs.map fileJSON) ++ "]"

/-- Embedding of json.Marshal(tc.Files).  On []File the Go call cannot
fail: every field is a string or an int64, for which marshalling is total
(no unsupported type or value can occur), so the result is always ok. -/
def marshalFiles (fs : List File) : Except String String :=
  Except.ok (filesJSON fs)

/-- strconv.FormatBool. -/
def formatBool (b : Bool) : String := if b then "true" else "false"

/-- The step-cell loop of getCSVRows: for each column pair up to maxSteps,
the record's own Action/Expected text, or two empty cells beyond it. -/
def stepCells (ms : Nat) (steps : List Step) : List String :=
  (List.range ms).flatMap (fun i =>
    match steps[i]? with
    | some s => [s.Action, s.Expected]
    | none => ["", ""])

/-- Header row of getCSVRows: the static columns followed by the numbered
Step/Expected pairs. -/
def headerRow (ms : Nat) : List String :=
  staticColumns ++ (List.range ms).flatMap (fun i =>
    ["Step " ++ toString (i + 1), "Expected " ++ toString (i + 1)])

/-- Requirements cell: bracketed link text when a Requirement is present. -/
def requirementCell (tc : TestCase) : String :=
  match tc.Requirement with
  | some r => "[" ++ r.Title ++ "](" ++ r.URL ++ ")"
  | none => ""

/-- Links cell: each link bracketed, joined with commas. -/
def linksCell (tc : TestCase) : String :=
  String.intercalate "," (tc.Links.map (fun l => "[" ++ l.Title ++ "](" ++ l.URL ++ ")"))

/-- Data row of getCSVRows for one record, with the Files cell supplied. -/
def tcRowWith (f : String) (ms : Nat) (tc : TestCase) (files : String) :
    List String :=
  [f, tc.Title, tc.LegacyID, formatBool tc.Draft, tc.Priority,
   String.intercalate "," tc.Tags, requirementCell tc, linksCell tc, files,
   tc.Preconditions] ++ stepCells ms tc.Steps

/-- Files cell: empty when the record has no files, else the JSON text. -/
def filesCell (tc : TestCase) : String :=
  if tc.Files.isEmpty then "" else filesJSON tc.Files

/-- Data row of getCSVRows for one record. -/
def tcRow (f : String) (ms : Nat) (tc : TestCase) : List String :=
  tcRowWith f ms tc (filesCell tc)

/-- Data row construction including the fallible marshalling step, as the
source writes it. -/
def tcRowE (f : String) (ms : Nat) (tc : TestCase) : Except String (List String) := do
  let files ← (if tc.Files.isEmpty then Except.ok "" else marshalFiles tc.Files)
  return tcRowWith f ms tc files

/-- Embedding of getCSVRows, abstracted over the Go map iteration order
iter (a permutation of the keys): header row, then per sorted folder the
rows of its records in stored order.  Any marshalling error aborts. -/
def getCSVRowsIter (q : QASphereCSV) (iter : List String) :
    Except String (List (List String)) := do
  let groups ← (getFoldersOf iter).mapM
    (fun f => (lookupFolder q.folderTCaseMap f).mapM (tcRowE f q.maxSteps))
  return headerRow q.maxSteps :: groups.flatten

/-- Embedding of getCSVRows at the canonical key enumeration. -/
def getCSVRows (q : QASphereCSV) : Except String (List (List String)) :=
  getCSVRowsIter q (q.folderTCaseMap.map Prod.fst)

/-- The pure grid the export produces (getCSVRows never fails). -/
def csvGrid (q : QASphereCSV) : List (List String) :=
  headerRow q.maxSteps ::
    (getFolders q).flatMap
      (fun f => (lookupFolder q.folderTCaseMap f).map (tcRow f q.maxSteps))

/-- White-space test on the leading rune of a field (unicode.IsSpace). -/
def isSpaceRune (c : Char) : Bool :=
  c = ' ' || c = '\t' || c = '\n' ||
  (c.toNat ≥ 11 && c.toNat ≤ 13) || c.toNat = 133 || c.toNat = 160 ||
  c.toNat = 5760 || (c.toNat ≥ 8192 && c.toNat ≤ 8202) ||
  c.toNat = 8232 || c.toNat = 8233 || c.toNat = 8239 || c.toNat = 8287 ||
  c.toNat = 12288

/-- Go encoding/csv fieldNeedsQuotes with the default comma delimiter. -/
def fieldNeedsQuotes (field : String) : Bool :=
  if field == "" then false
  else if field == "\\." then true
  else
    field.data.any (fun c => c = ',' || c.toNat = 34 || c = '\r' || c = '\n')
    || (match field.data with
        | [] => false
        | c :: _ => isSpaceRune c)

/-- Go encoding/csv rendering of one field (UseCRLF false): quoted fields
double embedded quotes and keep bare CR and LF. -/
def encodeField (field : String) : String :=
  if fieldNeedsQuotes field then
    "\"" ++ String.join (field.data.map
      (fun c => if c.toNat = 34 then "\"\"" else String.singleton c)) ++ "\""
  else field

/-- Go encoding/csv rendering of one record with the default comma
delimiter and LF terminator. -/
def writeRow (row : List String) : String :=
  String.intercalate "," (row.map encodeField) ++ "\n"

/-- Go encoding/csv WriteAll over the grid. -/
def writeAll (rows : List (List String)) : String :=
  String.join (rows.map writeRow)

/-- Embedding of GenerateCSV (via writeCSV), abstracted over the map
iteration order. -/
def GenerateCSVIter (q : QASphereCSV) (iter : List String) : Except String String := do
  let rows ← getCSVRowsIter q iter
  return writeAll rows

/-- Embedding of GenerateCSV at the canonical key enumeration. -/
def GenerateCSV (q : QASphereCSV) : Except String String :=
  GenerateCSVIter q (q.folderTCaseMap.map Prod.fst)

/-- Concrete record of the spec's concrete export scenario: Title T1,
Folder [root], Priority high, everything else at its zero value. -/
def tc7 : TestCase := ⟨"T1", "", ["root"], "high", [], "", [], none, [], [], false⟩

/-- Sample state with maxSteps 2 used to instantiate the header/width
theorem. -/
def qC1 : QASphereCSV := ⟨[], 0, 2⟩

/-- Sample record with one step used to instantiate the header/width
theorem. -/
def tcC1 : TestCase := ⟨"T", "", ["r"], "low", [], "", [⟨"a", "e"⟩], none, [], [], false⟩

/-- Invalid record (empty Title) used to instantiate the batch theorem. -/
def tcC2 : TestCase := ⟨"", "", ["root"], "high", [], "", [], none, [], [], false⟩

/-- Invalid record (empty Title) used to instantiate the rejection
theorem. -/
def tcC3 : TestCase := ⟨"", "", ["root"], "low", [], "", [], none, [], [], false⟩

/-- Record without links used to instantiate the cell-format theorem. -/
def tcC5 : TestCase := ⟨"T", "", ["r"], "low", [], "", [], none, [], [], false⟩

/-- Record with one attached file used to instantiate the Files-cell
theorem. -/
def tcC6 : TestCase :=
  ⟨"T", "", ["r"], "low", [], "", [], none, [⟨"a.txt", "id1", "", "text/plain", 3⟩], [], false⟩

/-- Two-folder state used to instantiate the determinism theorem. -/
def qC8 : QASphereCSV := ⟨[("b", []), ("a", [])], 0, 0⟩

/-- The record is rejected by both AddTestCase and AddTestCases (in any
batch position), leaving the accumulator untouched, with a violation naming
the given field. -/
def rejectedNaming (tc : TestCase) (name : String) : Prop :=
  (∀ q, (AddTestCase q tc).1 = q ∧ (AddTestCase q tc).2 = some (validateTestCase tc)) ∧
  (∀ q tcs i, tcs[i]? = some tc →
    (AddTestCases q tcs).1 = q ∧
    ∃ bErrs, (AddTestCases q tcs).2 = some bErrs ∧ (i, validateTestCase tc) ∈ bErrs) ∧
  (∃ v ∈ validateTestCase tc, v.field = name)

theorem char_eq_of_toNat_eq {a b : Char} (h : a.toNat = b.toNat) : a = b := by
  apply Char.eq_of_val_eq
  apply UInt32.ext
  exact h

theorem charsLe_total : ∀ as bs : List Char, charsLe as bs = true ∨ charsLe bs as = true
  | [], bs => by cases bs <;> simp [charsLe]
  | a :: as, [] => by simp [charsLe]
  | a :: as, b :: bs => by
    by_cases h : a = b
    · subst h
      simpa [charsLe] using charsLe_total as bs
    · simp only [charsLe, if_neg h, if_neg (Ne.symm h)]
      rcases Nat.lt_trichotomy a.toNat b.toNat with hlt | heq | hgt
      · left; simpa [Nat.blt_eq] using hlt
      · exact absurd (char_eq_of_toNat_eq heq) h
      · right; simpa [Nat.blt_eq] using hgt

theorem charsLe_trans : ∀ as bs cs : List Char,
    charsLe as bs = true → charsLe bs cs = true → charsLe as cs = true
  | [], _, cs => by intro _ _; cases cs <;> simp [charsLe]
  | a :: as, [], cs => by simp [charsLe]
  | a :: as, b :: bs, [] => by intro _ h; simp [charsLe] at h
  | a :: as, b :: bs, c :: cs => by
    by_cases hab : a = b <;> by_cases hbc : b = c
    · subst hab; subst hbc
      simp only [charsLe, if_pos rfl]
      exact charsLe_trans as bs cs
    · subst hab
      simp only [charsLe, if_pos rfl, if_neg hbc]
      intro _ h2; exact h2
    · subst hbc
      simp only [charsLe, if_neg hab]
      intro h1 _; exact h1
    · simp only [charsLe, if_neg hab, if_neg hbc, Nat.blt_eq]
      intro h1 h2
      by_cases hac : a = c
      · subst hac; omega
      · simp only [if_neg hac, Nat.blt_eq]; omega

theorem charsLe_antisymm : ∀ as bs : List Char,
    charsLe as bs = true → charsLe bs as = true → as = bs
  | [], [] => by intro _ _; rfl
  | [], b :: bs => by intro _ h; simp [charsLe] at h
  | a :: as, [] => by simp [charsLe]
  | a :: as, b :: bs => by
    by_cases h : a = b
    · subst h
      simp only [charsLe, if_pos rfl]
      intro h1 h2
      rw [charsLe_antisymm as bs h1 h2]
    · simp only [charsLe, if_neg h, if_neg (Ne.symm h), Nat.blt_eq]
      intro h1 h2
      exact absurd (char_eq_of_toNat_eq (by omega)) h

theorem strLe_total (a b : String) : strLe a b = true ∨ strLe b a = true :=
  charsLe_total a.data b.data

theorem strLe_trans {a b c : String} (h1 : strLe a b = true) (h2 : strLe b c = true) :
    strLe a c = true :=
  charsLe_trans a.data b.data c.data h1 h2

theorem strLe_antisymm {a b : String} (h1 : strLe a b = true) (h2 : strLe b a = true) :
    a = b :=
  String.ext (charsLe_antisymm a.data b.data h1 h2)

instance : IsTotal String (fun a b => strLe a b = true) := ⟨strLe_total⟩

instance : IsTrans String (fun a b => strLe a b = true) :=
  ⟨fun _ _ _ h1 h2 => strLe_trans h1 h2⟩

instance : IsAntisymm String (fun a b => strLe a b = true) :=
  ⟨fun _ _ h1 h2 => strLe_antisymm h1 h2⟩

theorem mapM_ok {α β : Type} (f : α → Except String β) (g : α → β)
    (hfg : ∀ a, f a = Except.ok (g a)) : ∀ l : List α, l.mapM f = Except.ok (l.map g)
  | [] => rfl
  | a :: l => by
    rw [List.mapM_cons, hfg a, mapM_ok f g hfg l]
    rfl

theorem tcRowE_ok (f : String) (ms : Nat) (tc : TestCase) :
    tcRowE f ms tc = Except.ok (tcRow f ms tc) := by
  unfold tcRowE tcRow filesCell marshalFiles
  cases h : tc.Files.isEmpty <;> simp [h]

theorem getCSVRowsIter_ok (q : QASphereCSV) (iter : List String) :
    getCSVRowsIter q iter = Except.ok (headerRow q.maxSteps ::
      ((getFoldersOf iter).map
        (fun f => (lookupFolder q.folderTCaseMap f).map (tcRow f q.maxSteps))).flatten) := by
  unfold getCSVRowsIter
  rw [mapM_ok _ (fun f => (lookupFolder q.folderTCaseMap f).map (tcRow f q.maxSteps))
      (fun f => mapM_ok _ _ (tcRowE_ok f q.maxSteps) _)]
  rfl

/-- Claim C9: the json-marshal error branch of the export pass is
unreachable: getCSVRows always returns the grid, never the serialization
failure (for every accumulator state, reachable or not). -/
theorem C9_marshal_error_unreachable (q : QASphereCSV) :
    getCSVRows q = Except.ok (csvGrid q) := by
  unfold getCSVRows csvGrid
  rw [getCSVRowsIter_ok]
  rfl

theorem GenerateCSV_ok (q : QASphereCSV) :
    GenerateCSV q = Except.ok (writeAll (csvGrid q)) := by
  unfold GenerateCSV GenerateCSVIter
  have h := C9_marshal_error_unreachable q
  unfold getCSVRows at h
  rw [h]
  rfl

/-- Claim C10: exporting from a fresh engine succeeds and yields exactly
the static header row. -/
theorem C10_empty_export :
    GenerateCSV NewQASphereCSV =
      Except.ok "Folder,Name,Legacy ID,Draft,Priority,Tags,Requirements,Links,Files,Preconditions\n"
    ∧ csvGrid NewQASphereCSV = [staticColumns] := ⟨rfl, rfl⟩

/-- Claim C7 as written is false: the claimed data row text has eleven
cells (ten commas), but the exported row has exactly ten cells (nine
commas), so the generated text differs from the claimed one. -/
theorem C7_counterexample :
    (AddTestCase NewQASphereCSV tc7).2 = none ∧
    GenerateCSV (AddTestCase NewQASphereCSV tc7).1 ≠
      Except.ok "Folder,Name,Legacy ID,Draft,Priority,Tags,Requirements,Links,Files,Preconditions\nroot,T1,,false,high,,,,,,\n" := by
  refine ⟨rfl, ?_⟩
  intro h
  have h2 : ("Folder,Name,Legacy ID,Draft,Priority,Tags,Requirements,Links,Files,Preconditions\nroot,T1,,false,high,,,,,\n" : String) =
      "Folder,Name,Legacy ID,Draft,Priority,Tags,Requirements,Links,Files,Preconditions\nroot,T1,,false,high,,,,,,\n" := by
    have h1 : GenerateCSV (AddTestCase NewQASphereCSV tc7).1 =
        Except.ok "Folder,Name,Legacy ID,Draft,Priority,Tags,Requirements,Links,Files,Preconditions\nroot,T1,,false,high,,,,,\n" := rfl
    exact Except.ok.inj (h1.symm.trans h)
  exact absurd h2 (by decide)

/-- Claim C7, amended: the single data row for the scenario record has ten
cells, rendering as nine commas: root,T1,,false,high followed by five empty
cells. -/
theorem C7_amended :
    (AddTestCase NewQASphereCSV tc7).2 = none ∧
    GenerateCSV (AddTestCase NewQASphereCSV tc7).1 =
      Except.ok "Folder,Name,Legacy ID,Draft,Priority,Tags,Requirements,Links,Files,Preconditions\nroot,T1,,false,high,,,,,\n" :=
  ⟨rfl, rfl⟩

/-- Claim C8: the export is deterministic: the sorted folder pass makes the
output independent of the (nondeterministic) map iteration order, so two
exports of the same state yield identical text. -/
theorem C8_export_deterministic (q : QASphereCSV) (it1 it2 : List String)
    (h1 : it1.Perm (q.folderTCaseMap.map Prod.fst))
    (h2 : it2.Perm (q.folderTCaseMap.map Prod.fst)) :
    GenerateCSVIter q it1 = GenerateCSVIter q it2 := by
  have hfold : getFoldersOf it1 = getFoldersOf it2 := by
    apply List.eq_of_perm_of_sorted
      (r := fun a b => strLe a b = true)
      (((List.perm_insertionSort _ it1).trans (h1.trans h2.symm)).trans
        (List.perm_insertionSort _ it2).symm)
    · exact List.sorted_insertionSort _ it1
    · exact List.sorted_insertionSort _ it2
  unfold GenerateCSVIter getCSVRowsIter
  rw [hfold]

theorem C8_witness :
    (["a", "b"].Perm (qC8.folderTCaseMap.map Prod.fst)) ∧
    (["b", "a"].Perm (qC8.folderTCaseMap.map Prod.fst)) ∧
    GenerateCSVIter qC8 ["a", "b"] = GenerateCSVIter qC8 ["b", "a"] :=
  ⟨by decide, by decide, C8_export_deterministic qC8 ["a", "b"] ["b", "a"] (by decide) (by decide)⟩

theorem length_flatMap_pairs {α : Type} (g : Nat → List α) (h : ∀ i, (g i).length = 2) :
    ∀ ms : Nat, ((List.range ms).flatMap g).length = 2 * ms
  | 0 => rfl
  | n + 1 => by
    rw [List.range_succ, List.flatMap_append, List.length_append,
        length_flatMap_pairs g h n]
    simp [h n, Nat.mul_succ]

theorem stepCells_length (ms : Nat) (ss : List Step) :
    (stepCells ms ss).length = 2 * ms := by
  unfold stepCells
  apply length_flatMap_pairs
  intro i
  cases h : ss[i]? <;> simp

theorem headerRow_length (ms : Nat) : (headerRow ms).length = 10 + 2 * ms := by
  unfold headerRow
  rw [List.length_append, length_flatMap_pairs _ (fun i => by simp) ms]
  simp [staticColumns]

theorem tcRow_length (f : String) (ms : Nat) (tc : TestCase) :
    (tcRow f ms tc).length = 10 + 2 * ms := by
  simp [tcRow, tcRowWith, stepCells_length]
  omega

theorem stepCells_nil (ms : Nat) : stepCells ms [] = List.replicate (2 * ms) "" := by
  induction ms with
  | zero => rfl
  | succ n ih =>
    unfold stepCells at ih ⊢
    rw [List.range_succ, List.flatMap_append, ih]
    simp [Nat.mul_succ, List.replicate_add]

theorem stepCells_cons (ms : Nat) (s : Step) (ss : List Step) :
    stepCells (ms + 1) (s :: ss) = [s.Action, s.Expected] ++ stepCells ms ss := by
  unfold stepCells
  rw [List.range_succ_eq_map]
  rw [List.flatMap_cons, List.flatMap_map]
  simp [List.getElem?_cons_succ]

theorem stepCells_pad : ∀ (ss : List Step) (ms : Nat), ss.length ≤ ms →
    stepCells ms ss =
      ss.flatMap (fun s => [s.Action, s.Expected]) ++ List.replicate (2 * (ms - ss.length)) ""
  | [], ms, _ => by simpa using stepCells_nil ms
  | s :: ss, 0, h => by simp at h
  | s :: ss, ms + 1, h => by
    rw [stepCells_cons, stepCells_pad ss ms (by simpa using h)]
    simp [List.append_assoc, Nat.succ_sub_succ]

/-- Claim C1: the first exported row is exactly the ten static column names
followed by the numbered Step/Expected pairs up to the state's maxSteps,
every row of the grid has exactly 10 + 2*maxSteps cells, and a record's
step cells beyond its own step count are two empty strings per missing
step. -/
theorem C1_header_and_row_width (q : QASphereCSV) :
    (csvGrid q).head? = some (staticColumns ++ (List.range q.maxSteps).flatMap
      (fun i => ["Step " ++ toString (i + 1), "Expected " ++ toString (i + 1)])) ∧
    (∀ row ∈ csvGrid q, row.length = 10 + 2 * q.maxSteps) ∧
    (∀ f tc, tc.Steps.length ≤ q.maxSteps →
      tcRow f q.maxSteps tc =
        [f, tc.Title, tc.LegacyID, formatBool tc.Draft, tc.Priority,
         String.intercalate "," tc.Tags, requirementCell tc, linksCell tc,
         filesCell tc, tc.Preconditions]
        ++ tc.Steps.flatMap (fun s => [s.Action, s.Expected])
        ++ List.replicate (2 * (q.maxSteps - tc.Steps.length)) "") := by
  refine ⟨rfl, ?_, ?_⟩
  · intro row hrow
    rcases List.mem_cons.mp hrow with h | h
    · subst h; exact headerRow_length q.maxSteps
    · rcases List.mem_flatMap.mp h with ⟨f, _, hf⟩
      rcases List.mem_map.mp hf with ⟨tc, _, htc⟩
      rw [← htc]
      exact tcRow_length f q.maxSteps tc
  · intro f tc h
    rw [tcRow, tcRowWith, stepCells_pad tc.Steps q.maxSteps h]
    simp [List.append_assoc]

theorem C1_witness :
    tcC1.Steps.length ≤ qC1.maxSteps ∧
    tcRow "r" qC1.maxSteps tcC1 =
      ["r", tcC1.Title, tcC1.LegacyID, formatBool tcC1.Draft, tcC1.Priority,
       String.intercalate "," tcC1.Tags, requirementCell tcC1, linksCell tcC1,
       filesCell tcC1, tcC1.Preconditions]
      ++ tcC1.Steps.flatMap (fun s => [s.Action, s.Expected])
      ++ List.replicate (2 * (qC1.maxSteps - tcC1.Steps.length)) "" :=
  ⟨by decide, (C1_header_and_row_width qC1).2.2 "r" tcC1 (by decide)⟩

/-- Claim C5: the Requirements cell (column 6) is the bracketed
Title/URL text exactly when a Requirement is present (brackets emitted even
for empty components) and empty otherwise; the Links cell (column 7) is the
comma-joined bracketed links, empty when there are none. -/
theorem C5_requirement_and_links_cells (f : String) (ms : Nat) (tc : TestCase) :
    (tcRow f ms tc)[6]? = some (match tc.Requirement with
      | some r => "[" ++ r.Title ++ "](" ++ r.URL ++ ")"
      | none => "") ∧
    (tcRow f ms tc)[7]? = some (String.intercalate ","
      (tc.Links.map (fun l => "[" ++ l.Title ++ "](" ++ l.URL ++ ")"))) ∧
    (tc.Links = [] → (tcRow f ms tc)[7]? = some "") := by
  refine ⟨?_, ?_, ?_⟩
  · simp [tcRow, tcRowWith, requirementCell]
  · simp [tcRow, tcRowWith, linksCell]
  · intro h
    simp [tcRow, tcRowWith, linksCell, h, String.intercalate]

theorem C5_witness : tcC5.Links = [] ∧ (tcRow "r" 0 tcC5)[7]? = some "" :=
  ⟨rfl, (C5_requirement_and_links_cells "r" 0 tcC5).2.2 rfl⟩

/-- Claim C6: the Files cell (column 8) is empty for a record without
files, and otherwise the compact JSON array with one object per file in
sequence order, fields in the order file_name, id, url, mime_type, size,
with id and url omitted entirely when empty. -/
theorem C6_files_cell (f : String) (ms : Nat) (tc : TestCase) :
    (tc.Files = [] → (tcRow f ms tc)[8]? = some "") ∧
    (tc.Files ≠ [] → (tcRow f ms tc)[8]? = some ("[" ++ String.intercalate ","
      (tc.Files.map (fun fl =>
        "\x7b\"file_name\":" ++ jsonQuote fl.Name
        ++ (if fl.ID == "" then "" else ",\"id\":" ++ jsonQuote fl.ID)
        ++ (if fl.URL == "" then "" else ",\"url\":" ++ jsonQuote fl.URL)
        ++ ",\"mime_type\":" ++ jsonQuote fl.MimeType
        ++ ",\"size\":" ++ toString fl.Size ++ "\x7d")) ++ "]")) := by
  constructor
  · intro h
    simp [tcRow, tcRowWith, filesCell, h]
  · intro h
    have hne : tc.Files.isEmpty = false := by
      cases hf : tc.Files with
      | nil => exact absurd hf h
      | cons a l => rfl
    have h8 : (tcRow f ms tc)[8]? = some (filesCell tc) := by
      simp [tcRow, tcRowWith]
    rw [h8]
    unfold filesCell
    rw [hne]
    rfl

theorem C6_witness :
    tcC6.Files ≠ [] ∧ (tcRow "r" 0 tcC6)[8]? = some ("[" ++ String.intercalate ","
      (tcC6.Files.map (fun fl =>
        "\x7b\"file_name\":" ++ jsonQuote fl.Name
        ++ (if fl.ID == "" then "" else ",\"id\":" ++ jsonQuote fl.ID)
        ++ (if fl.URL == "" then "" else ",\"url\":" ++ jsonQuote fl.URL)
        ++ ",\"mime_type\":" ++ jsonQuote fl.MimeType
        ++ ",\"size\":" ++ toString fl.Size ++ "\x7d")) ++ "]") :=
  ⟨by decide, (C6_files_cell "r" 0 tcC6).2 (by decide)⟩

theorem lookupFolder_cons (a : String) (b : List TestCase)
    (rest : List (String × List TestCase)) (f : String) :
    lookupFolder ((a, b) :: rest) f = if a == f then b else lookupFolder rest f := by
  unfold lookupFolder
  cases h : a == f <;> simp [List.find?_cons, h]

theorem lookup_insertTC (m : List (String × List TestCase)) (k : String)
    (tc : TestCase) (f : String) :
    lookupFolder (insertTC m k tc) f =
      if f = k then lookupFolder m f ++ [tc] else lookupFolder m f := by
  induction m with
  | nil =>
    by_cases h : f = k
    · subst h; simp [insertTC, lookupFolder_cons, lookupFolder]
    · have hb : (k == f) = false := by
        simp [Ne.symm h]
      simp [insertTC, lookupFolder_cons, lookupFolder, hb, h]
  | cons e rest ih =>
    obtain ⟨k0, l0⟩ := e
    by_cases hk : k0 = k
    · subst hk
      simp only [insertTC, if_pos rfl, lookupFolder_cons]
      by_cases hf : f = k0
      · subst hf; simp [lookupFolder_cons]
      · have hb : (k0 == f) = false := by simp [Ne.symm hf]
        simp [lookupFolder_cons, hb, hf]
    · simp only [insertTC, if_neg hk, lookupFolder_cons]
      by_cases hf : f = k0
      · subst hf
        have hfk : f ≠ k := fun h => hk h
        simp [lookupFolder_cons, hfk]
      · have hb : (k0 == f) = false := by simp [Ne.symm hf]
        simp only [hb, Bool.false_eq_true, if_false, ih, lookupFolder_cons]

theorem lookup_foldl : ∀ (tcs : List TestCase) (q : QASphereCSV) (f : String),
    lookupFolder ((tcs.foldl addTCase q).folderTCaseMap) f =
      lookupFolder q.folderTCaseMap f ++ tcs.filter (fun tc => folderPath tc == f)
  | [], q, f => by simp
  | tc :: tcs, q, f => by
    rw [List.foldl_cons, lookup_foldl tcs (addTCase q tc) f]
    show lookupFolder (insertTC q.folderTCaseMap (folderPath tc) tc) f ++ _ = _
    rw [lookup_insertTC, List.filter_cons]
    by_cases h : folderPath tc = f
    · simp [h, List.append_assoc]
    · simp [h, Ne.symm h]

theorem numTCases_foldl : ∀ (tcs : List TestCase) (q : QASphereCSV),
    (tcs.foldl addTCase q).numTCases = q.numTCases + tcs.length
  | [], _ => by simp
  | tc :: tcs, q => by
    rw [List.foldl_cons, numTCases_foldl tcs (addTCase q tc)]
    simp only [addTCase, List.length_cons]
    omega

theorem batchViolations_eq : ∀ (tcs : List TestCase) (i : Nat),
    batchViolations i tcs = (List.enumFrom i tcs).filterMap
      (fun p => if validateTestCase p.2 = [] then none
                else some (p.1, validateTestCase p.2))
  | [], _ => rfl
  | tc :: tcs, i => by
    simp only [batchViolations, List.enumFrom_cons, List.filterMap_cons]
    rw [batchViolations_eq tcs (i + 1)]
    cases h : validateTestCase tc with
    | nil => simp [h]
    | cons v vs => simp [h]

theorem batchViolations_nil_iff : ∀ (tcs : List TestCase) (i : Nat),
    batchViolations i tcs = [] ↔ ∀ tc ∈ tcs, validateTestCase tc = []
  | [], _ => by simp [batchViolations]
  | tc :: tcs, i => by
    simp only [batchViolations, List.append_eq_nil, List.forall_mem_cons]
    cases h : validateTestCase tc with
    | nil => simp [h, batchViolations_nil_iff tcs (i + 1)]
    | cons v vs => simp [h, batchViolations_nil_iff tcs (i + 1)]

/-- Claim C2: AddTestCases is all-or-nothing: any invalid record in the
batch leaves the accumulator untouched and returns the aggregated,
position-tagged violations of every offending record; a fully valid batch
is committed in full with no error. -/
theorem C2_batch_all_or_nothing (q : QASphereCSV) (tcs : List TestCase) :
    ((∃ tc ∈ tcs, validateTestCase tc ≠ []) →
      (AddTestCases q tcs).1 = q ∧
      (AddTestCases q tcs).2 = some (tcs.enum.filterMap
        (fun p => if validateTestCase p.2 = [] then none
                  else some (p.1, validateTestCase p.2)))) ∧
    ((∀ tc ∈ tcs, validateTestCase tc = []) →
      (AddTestCases q tcs).2 = none ∧
      (AddTestCases q tcs).1.numTCases = q.numTCases + tcs.length ∧
      (∀ f, lookupFolder ((AddTestCases q tcs).1.folderTCaseMap) f =
        lookupFolder q.folderTCaseMap f ++
          tcs.filter (fun tc => folderPath tc == f))) := by
  constructor
  · intro h
    have hbv : batchViolations 0 tcs ≠ [] := by
      rw [Ne, batchViolations_nil_iff]
      push_neg
      exact h
    unfold AddTestCases
    cases hb : batchViolations 0 tcs with
    | nil => exact absurd hb hbv
    | cons x xs =>
      refine ⟨rfl, ?_⟩
      show some (x :: xs) = _
      rw [← hb, batchViolations_eq tcs 0]
      rfl
  · intro h
    have hbv : batchViolations 0 tcs = [] := (batchViolations_nil_iff tcs 0).mpr h
    have heq : AddTestCases q tcs = (tcs.foldl addTCase q, none) := by
      unfold AddTestCases
      rw [hbv]
    rw [heq]
    exact ⟨rfl, numTCases_foldl tcs q, fun f => lookup_foldl tcs q f⟩

theorem C2_witness :
    (∃ tc ∈ [tcC2], validateTestCase tc ≠ []) ∧
    (AddTestCases NewQASphereCSV [tcC2]).1 = NewQASphereCSV ∧
    (AddTestCases NewQASphereCSV [tcC2]).2 = some ([tcC2].enum.filterMap
      (fun p => if validateTestCase p.2 = [] then none
                else some (p.1, validateTestCase p.2))) :=
  have h : ∃ tc ∈ [tcC2], validateTestCase tc ≠ [] := ⟨tcC2, by decide, by decide⟩
  ⟨h, (C2_batch_all_or_nothing NewQASphereCSV [tcC2]).1 h⟩

theorem insertTC_keys (m : List (String × List TestCase)) (k : String) (tc : TestCase) :
    (insertTC m k tc).map Prod.fst =
      if k ∈ m.map Prod.fst then m.map Prod.fst else m.map Prod.fst ++ [k] := by
  induction m with
  | nil => simp [insertTC]
  | cons e rest ih =>
    obtain ⟨k0, l0⟩ := e
    by_cases hk : k0 = k
    · subst hk; simp [insertTC]
    · simp only [insertTC, if_neg hk, List.map_cons, ih]
      by_cases hm : k ∈ rest.map Prod.fst
      · simp [hm, Ne.symm hk]
      · simp [hm, Ne.symm hk]

theorem foldl_keys_nodup : ∀ (tcs : List TestCase) (q : QASphereCSV),
    (q.folderTCaseMap.map Prod.fst).Nodup →
    (((tcs.foldl addTCase q).folderTCaseMap).map Prod.fst).Nodup
  | [], _, h => h
  | tc :: tcs, q, h => by
    rw [List.foldl_cons]
    apply foldl_keys_nodup tcs
    show ((insertTC q.folderTCaseMap (folderPath tc) tc).map Prod.fst).Nodup
    rw [insertTC_keys]
    split_ifs with hm
    · exact h
    · simp [List.nodup_append, h, hm]

/-- Claim C4: in the exported grid the data rows are grouped by the joined
folder path, folder groups are in strictly ascending byte-lexicographic
key order whatever the insertion order was, and inside one group the
records keep exactly the order in which they were accumulated. -/
theorem C4_grouping_and_order (tcs : List TestCase) :
    List.Sorted (fun a b => strLe a b = true ∧ a ≠ b)
      (getFolders (tcs.foldl addTCase NewQASphereCSV)) ∧
    (∀ f, lookupFolder ((tcs.foldl addTCase NewQASphereCSV).folderTCaseMap) f =
      tcs.filter (fun tc => folderPath tc == f)) ∧
    csvGrid (tcs.foldl addTCase NewQASphereCSV) =
      headerRow (tcs.foldl addTCase NewQASphereCSV).maxSteps ::
        (getFolders (tcs.foldl addTCase NewQASphereCSV)).flatMap
          (fun f => (tcs.filter (fun tc => folderPath tc == f)).map
            (tcRow f (tcs.foldl addTCase NewQASphereCSV).maxSteps)) := by
  have hlookup : ∀ f,
      lookupFolder ((tcs.foldl addTCase NewQASphereCSV).folderTCaseMap) f =
        tcs.filter (fun tc => folderPath tc == f) := by
    intro f
    rw [lookup_foldl]
    simp [NewQASphereCSV, lookupFolder]
  refine ⟨?_, hlookup, ?_⟩
  · have hnd : (((tcs.foldl addTCase NewQASphereCSV).folderTCaseMap).map Prod.fst).Nodup :=
      foldl_keys_nodup tcs NewQASphereCSV (by simp [NewQASphereCSV])
    have hs : List.Sorted (fun a b => strLe a b = true)
        (getFolders (tcs.foldl addTCase NewQASphereCSV)) := by
      unfold getFolders getFoldersOf
      exact List.sorted_insertionSort _ _
    have hnd2 : (getFolders (tcs.foldl addTCase NewQASphereCSV)).Nodup := by
      unfold getFolders getFoldersOf
      exact ((List.perm_insertionSort _ _).nodup_iff).mpr hnd
    exact hs.and hnd2
  · unfold csvGrid
    congr 1
    have hfun : (fun f => (lookupFolder ((tcs.foldl addTCase NewQASphereCSV).folderTCaseMap) f).map
        (tcRow f (tcs.foldl addTCase NewQASphereCSV).maxSteps)) =
        (fun f => (tcs.filter (fun tc => folderPath tc == f)).map
          (tcRow f (tcs.foldl addTCase NewQASphereCSV).maxSteps)) :=
      funext fun f => by rw [hlookup f]
    rw [hfun]

theorem mem_idxViolations_aux {α : Type} (pre : String) (g : String → α → List Violation)
    (v : Violation) : ∀ (l : List α) (i j : Nat) (x : α), l[j]? = some x →
    v ∈ g (pre ++ "[" ++ toString (i + j) ++ "]") x → v ∈ idxViolations pre g i l
  | [], _, _, _, hj, _ => by simp at hj
  | y :: ys, i, 0, x, hj, hv => by
    simp only [List.getElem?_cons_zero, Option.some.injEq] at hj
    subst hj
    simp only [idxViolations]
    exact List.mem_append_left _ (by simpa using hv)
  | y :: ys, i, j + 1, x, hj, hv => by
    simp only [List.getElem?_cons_succ] at hj
    simp only [idxViolations]
    apply List.mem_append_right
    apply mem_idxViolations_aux pre g v ys (i + 1) j x hj
    have harith : i + 1 + j = i + (j + 1) := by omega
    rw [harith]
    exact hv

theorem mem_idxViolations {α : Type} (pre : String) (g : String → α → List Violation)
    (l : List α) (j : Nat) (x : α) (v : Violation) (hj : l[j]? = some x)
    (hv : v ∈ g (pre ++ "[" ++ toString j ++ "]") x) :
    v ∈ idxViolations pre g 0 l :=
  mem_idxViolations_aux pre g v l 0 j x hj (by simpa using hv)

theorem addTCs_reject (q : QASphereCSV) (tcs : List TestCase) (i : Nat) (tc : TestCase)
    (hi : tcs[i]? = some tc) (hv : validateTestCase tc ≠ []) :
    (AddTestCases q tcs).1 = q ∧
    ∃ bErrs, (AddTestCases q tcs).2 = some bErrs ∧ (i, validateTestCase tc) ∈ bErrs := by
  have hmem : (i, validateTestCase tc) ∈ batchViolations 0 tcs := by
    rw [batchViolations_eq tcs 0]
    refine List.mem_filterMap.mpr ⟨(i, tc), ?_, ?_⟩
    · show (i, tc) ∈ tcs.enum
      exact List.mem_enum_iff_getElem?.mpr hi
    · simp [hv]
  unfold AddTestCases
  cases hb : batchViolations 0 tcs with
  | nil => rw [hb] at hmem; cases hmem
  | cons x xs =>
    rw [hb] at hmem
    exact ⟨rfl, x :: xs, rfl, hmem⟩

theorem rejectedNaming_of_mem {tc : TestCase} {name : String}
    (h : ∃ v ∈ validateTestCase tc, v.field = name) : rejectedNaming tc name := by
  obtain ⟨v, hv, hname⟩ := h
  have hne : validateTestCase tc ≠ [] := by
    intro h0
    rw [h0] at hv
    cases hv
  refine ⟨?_, ?_, ⟨v, hv, hname⟩⟩
  · intro q
    unfold AddTestCase
    cases hvt : validateTestCase tc with
    | nil => exact absurd hvt hne
    | cons x xs => exact ⟨rfl, rfl⟩
  · intro q tcs i hi
    exact addTCs_reject q tcs i tc hi hne

theorem reject_title_empty (tc : TestCase) (h : tc.Title = "") :
    rejectedNaming tc "Title" := by
  apply rejectedNaming_of_mem
  exact ⟨⟨"Title", "required"⟩, by simp [validateTestCase, firstFail, h], rfl⟩

theorem reject_title_long (tc : TestCase) (h : 255 < tc.Title.data.length) :
    rejectedNaming tc "Title" := by
  apply rejectedNaming_of_mem
  have h1 : tc.Title ≠ "" := by
    intro e
    rw [e] at h
    simp at h
  refine ⟨⟨"Title", "max"⟩, ?_, rfl⟩
  simp [validateTestCase, firstFail, h1, show (255 : Nat) < tc.Title.length from h]

theorem reject_folder_empty (tc : TestCase) (h : tc.Folder = []) :
    rejectedNaming tc "Folder" := by
  apply rejectedNaming_of_mem
  exact ⟨⟨"Folder", "min"⟩, by simp [validateTestCase, h], rfl⟩

theorem reject_folder_slash (tc : TestCase) (i : Nat) (seg : String)
    (hseg : tc.Folder[i]? = some seg) (hc : seg.data.contains '/' = true) :
    rejectedNaming tc ("Folder[" ++ toString i ++ "]") := by
  apply rejectedNaming_of_mem
  have hnonempty : tc.Folder.isEmpty = false := by
    cases hf : tc.Folder with
    | nil => rw [hf] at hseg; simp at hseg
    | cons a l => rfl
  have hne : seg ≠ "" := by
    intro e
    rw [e] at hc
    simp at hc
  by_cases hmax : seg.data.length ≤ 127
  · refine ⟨⟨"Folder" ++ "[" ++ toString i ++ "]", "excludesall"⟩, ?_, rfl⟩
    have hmem : (⟨"Folder" ++ "[" ++ toString i ++ "]", "excludesall"⟩ : Violation) ∈
        firstFail ("Folder" ++ "[" ++ toString i ++ "]")
          [("required", seg != ""), ("max", decide (seg.data.length ≤ 127)),
           ("excludesall", !(seg.data.contains '/'))] := by
      have hChar : '/' ∈ seg.data := by simpa using hc
      simp [firstFail, hne, show seg.length ≤ 127 from hmax, hChar]
    have hidx := mem_idxViolations "Folder"
      (fun n seg => firstFail n
        [("required", seg != ""), ("max", decide (seg.data.length ≤ 127)),
         ("excludesall", !(seg.data.contains '/'))])
      tc.Folder i seg ⟨"Folder" ++ "[" ++ toString i ++ "]", "excludesall"⟩ hseg hmem
    simp only [validateTestCase, List.mem_append, hnonempty, Bool.false_eq_true, if_false]
    tauto
  · refine ⟨⟨"Folder" ++ "[" ++ toString i ++ "]", "max"⟩, ?_, rfl⟩
    have hmem : (⟨"Folder" ++ "[" ++ toString i ++ "]", "max"⟩ : Violation) ∈
        firstFail ("Folder" ++ "[" ++ toString i ++ "]")
          [("required", seg != ""), ("max", decide (seg.data.length ≤ 127)),
           ("excludesall", !(seg.data.contains '/'))] := by
      simp [firstFail, hne, show ¬ seg.length ≤ 127 from hmax]
    have hidx := mem_idxViolations "Folder"
      (fun n seg => firstFail n
        [("required", seg != ""), ("max", decide (seg.data.length ≤ 127)),
         ("excludesall", !(seg.data.contains '/'))])
      tc.Folder i seg ⟨"Folder" ++ "[" ++ toString i ++ "]", "max"⟩ hseg hmem
    simp only [validateTestCase, List.mem_append, hnonempty, Bool.false_eq_true, if_false]
    tauto

theorem reject_priority (tc : TestCase)
    (h : tc.Priority ∉ (["low", "medium", "high"] : List String)) :
    rejectedNaming tc "Priority" := by
  apply rejectedNaming_of_mem
  have h1 : tc.Priority ≠ "low" ∧ tc.Priority ≠ "medium" ∧ tc.Priority ≠ "high" := by
    simp only [List.mem_cons, List.not_mem_nil, or_false, not_or] at h
    exact h
  by_cases hp : tc.Priority = ""
  · exact ⟨⟨"Priority", "required"⟩, by simp [validateTestCase, firstFail, hp], rfl⟩
  · exact ⟨⟨"Priority", "oneof"⟩,
      by simp [validateTestCase, firstFail, hp, h1.1, h1.2.1, h1.2.2], rfl⟩

theorem reject_tag_empty (tc : TestCase) (i : Nat) (h : tc.Tags[i]? = some "") :
    rejectedNaming tc ("Tags[" ++ toString i ++ "]") := by
  apply rejectedNaming_of_mem
  refine ⟨⟨"Tags" ++ "[" ++ toString i ++ "]", "required"⟩, ?_, rfl⟩
  have hmem : (⟨"Tags" ++ "[" ++ toString i ++ "]", "required"⟩ : Violation) ∈
      firstFail ("Tags" ++ "[" ++ toString i ++ "]")
        [("required", ("" : String) != ""), ("max", decide (("" : String).data.length ≤ 255))] := by
    simp [firstFail]
  have hidx := mem_idxViolations "Tags"
    (fun n t => firstFail n [("required", t != ""), ("max", decide (t.data.length ≤ 255))])
    tc.Tags i "" ⟨"Tags" ++ "[" ++ toString i ++ "]", "required"⟩ h hmem
  simp only [validateTestCase, List.mem_append]
  tauto

theorem reject_requirement_empty (tc : TestCase) (r : Requirement)
    (h : tc.Requirement = some r) (h1 : r.Title = "") (h2 : r.URL = "") :
    rejectedNaming tc "Requirement.Title" := by
  apply rejectedNaming_of_mem
  refine ⟨⟨"Requirement" ++ ".Title", "required_without"⟩, ?_, rfl⟩
  have hmem : (⟨"Requirement" ++ ".Title", "required_without"⟩ : Violation) ∈
      validateRequirement "Requirement" r := by
    unfold validateRequirement
    apply List.mem_append_left
    simp [firstFail, h1, h2]
  simp only [validateTestCase, List.mem_append, h]
  tauto

theorem reject_requirement_url (tc : TestCase) (r : Requirement)
    (h : tc.Requirement = some r) (h1 : r.URL ≠ "") (h2 : isHttpURL r.URL = false) :
    rejectedNaming tc "Requirement.URL" := by
  apply rejectedNaming_of_mem
  refine ⟨⟨"Requirement" ++ ".URL", "http_url"⟩, ?_, rfl⟩
  have hmem : (⟨"Requirement" ++ ".URL", "http_url"⟩ : Violation) ∈
      validateRequirement "Requirement" r := by
    unfold validateRequirement
    apply List.mem_append_right
    simp [firstFail, h1, h2]
  simp only [validateTestCase, List.mem_append, h]
  tauto

theorem reject_link_url_scheme (tc : TestCase) (i : Nat) (l : Link)
    (h : tc.Links[i]? = some l) (h1 : l.URL ≠ "") (h2 : isHttpURL l.URL = false) :
    rejectedNaming tc ("Links[" ++ toString i ++ "]" ++ ".URL") := by
  apply rejectedNaming_of_mem
  refine ⟨⟨"Links" ++ "[" ++ toString i ++ "]" ++ ".URL", "http_url"⟩, ?_, rfl⟩
  have hmem : (⟨"Links" ++ "[" ++ toString i ++ "]" ++ ".URL", "http_url"⟩ : Violation) ∈
      validateLink ("Links" ++ "[" ++ toString i ++ "]") l := by
    unfold validateLink
    apply List.mem_append_right
    simp [firstFail, h1, h2]
  have hidx := mem_idxViolations "Links" validateLink tc.Links i l
    ⟨"Links" ++ "[" ++ toString i ++ "]" ++ ".URL", "http_url"⟩ h hmem
  simp only [validateTestCase, List.mem_append]
  tauto

theorem reject_file_url_scheme (tc : TestCase) (i : Nat) (fl : File)
    (h : tc.Files[i]? = some fl) (h1 : fl.URL ≠ "") (h2 : isHttpURL fl.URL = false) :
    rejectedNaming tc ("Files[" ++ toString i ++ "]" ++ ".URL") := by
  apply rejectedNaming_of_mem
  refine ⟨⟨"Files" ++ "[" ++ toString i ++ "]" ++ ".URL", "http_url"⟩, ?_, rfl⟩
  have hmem : (⟨"Files" ++ "[" ++ toString i ++ "]" ++ ".URL", "http_url"⟩ : Violation) ∈
      validateFile ("Files" ++ "[" ++ toString i ++ "]") fl := by
    unfold validateFile
    apply List.mem_append_right
    simp [firstFail, h1, h2]
  have hidx := mem_idxViolations "Files" validateFile tc.Files i fl
    ⟨"Files" ++ "[" ++ toString i ++ "]" ++ ".URL", "http_url"⟩ h hmem
  simp only [validateTestCase, List.mem_append]
  tauto

theorem reject_link_title_missing (tc : TestCase) (i : Nat) (l : Link)
    (h : tc.Links[i]? = some l) (h1 : l.Title = "") :
    rejectedNaming tc ("Links[" ++ toString i ++ "]" ++ ".Title") := by
  apply rejectedNaming_of_mem
  refine ⟨⟨"Links" ++ "[" ++ toString i ++ "]" ++ ".Title", "required"⟩, ?_, rfl⟩
  have hmem : (⟨"Links" ++ "[" ++ toString i ++ "]" ++ ".Title", "required"⟩ : Violation) ∈
      validateLink ("Links" ++ "[" ++ toString i ++ "]") l := by
    unfold validateLink
    apply List.mem_append_left
    simp [firstFail, h1]
  have hidx := mem_idxViolations "Links" validateLink tc.Links i l
    ⟨"Links" ++ "[" ++ toString i ++ "]" ++ ".Title", "required"⟩ h hmem
  simp only [validateTestCase, List.mem_append]
  tauto

theorem reject_link_url_missing (tc : TestCase) (i : Nat) (l : Link)
    (h : tc.Links[i]? = some l) (h1 : l.URL = "") :
    rejectedNaming tc ("Links[" ++ toString i ++ "]" ++ ".URL") := by
  apply rejectedNaming_of_mem
  refine ⟨⟨"Links" ++ "[" ++ toString i ++ "]" ++ ".URL", "required"⟩, ?_, rfl⟩
  have hmem : (⟨"Links" ++ "[" ++ toString i ++ "]" ++ ".URL", "required"⟩ : Violation) ∈
      validateLink ("Links" ++ "[" ++ toString i ++ "]") l := by
    unfold validateLink
    apply List.mem_append_right
    simp [firstFail, h1]
  have hidx := mem_idxViolations "Links" validateLink tc.Links i l
    ⟨"Links" ++ "[" ++ toString i ++ "]" ++ ".URL", "required"⟩ h hmem
  simp only [validateTestCase, List.mem_append]
  tauto

theorem reject_file_name_missing (tc : TestCase) (i : Nat) (fl : File)
    (h : tc.Files[i]? = some fl) (h1 : fl.Name = "") :
    rejectedNaming tc ("Files[" ++ toString i ++ "]" ++ ".Name") := by
  apply rejectedNaming_of_mem
  refine ⟨⟨"Files" ++ "[" ++ toString i ++ "]" ++ ".Name", "required"⟩, ?_, rfl⟩
  have hmem : (⟨"Files" ++ "[" ++ toString i ++ "]" ++ ".Name", "required"⟩ : Violation) ∈
      validateFile ("Files" ++ "[" ++ toString i ++ "]") fl := by
    unfold validateFile
    apply List.mem_append_left
    apply List.mem_append_left
    simp [firstFail, h1]
  have hidx := mem_idxViolations "Files" validateFile tc.Files i fl
    ⟨"Files" ++ "[" ++ toString i ++ "]" ++ ".Name", "required"⟩ h hmem
  simp only [validateTestCase, List.mem_append]
  tauto

theorem reject_file_both_missing (tc : TestCase) (i : Nat) (fl : File)
    (h : tc.Files[i]? = some fl) (h1 : fl.ID = "") (h2 : fl.URL = "") :
    rejectedNaming tc ("Files[" ++ toString i ++ "]" ++ ".ID") := by
  apply rejectedNaming_of_mem
  refine ⟨⟨"Files" ++ "[" ++ toString i ++ "]" ++ ".ID", "required_without"⟩, ?_, rfl⟩
  have hmem : (⟨"Files" ++ "[" ++ toString i ++ "]" ++ ".ID", "required_without"⟩ : Violation) ∈
      validateFile ("Files" ++ "[" ++ toString i ++ "]") fl := by
    unfold validateFile
    apply List.mem_append_left
    apply List.mem_append_right
    simp [firstFail, h1, h2]
  have hidx := mem_idxViolations "Files" validateFile tc.Files i fl
    ⟨"Files" ++ "[" ++ toString i ++ "]" ++ ".ID", "required_without"⟩ h hmem
  simp only [validateTestCase, List.mem_append]
  tauto

/-- Claim C3: every defect in the rejection set makes AddTestCase and
AddTestCases reject the record (accumulator untouched) with a validation
error naming the offending field: empty or over-long Title, empty Folder
sequence, folder segment containing a slash, Priority outside the
enumeration, empty Tag, Requirement with neither Title nor URL, non-http(s)
Requirement/Link/File URL, Link missing Title or URL, File missing Name or
missing both ID and URL. -/
theorem C3_rejection_set :
    (∀ tc : TestCase, tc.Title = "" → rejectedNaming tc "Title") ∧
    (∀ tc : TestCase, 255 < tc.Title.data.length → rejectedNaming tc "Title") ∧
    (∀ tc : TestCase, tc.Folder = [] → rejectedNaming tc "Folder") ∧
    (∀ (tc : TestCase) (i : Nat) (seg : String), tc.Folder[i]? = some seg →
      seg.data.contains '/' = true → rejectedNaming tc ("Folder[" ++ toString i ++ "]")) ∧
    (∀ tc : TestCase, tc.Priority ∉ (["low", "medium", "high"] : List String) →
      rejectedNaming tc "Priority") ∧
    (∀ (tc : TestCase) (i : Nat), tc.Tags[i]? = some "" →
      rejectedNaming tc ("Tags[" ++ toString i ++ "]")) ∧
    (∀ (tc : TestCase) (r : Requirement), tc.Requirement = some r → r.Title = "" →
      r.URL = "" → rejectedNaming tc "Requirement.Title") ∧
    (∀ (tc : TestCase) (r : Requirement), tc.Requirement = some r → r.URL ≠ "" →
      isHttpURL r.URL = false → rejectedNaming tc "Requirement.URL") ∧
    (∀ (tc : TestCase) (i : Nat) (l : Link), tc.Links[i]? = some l → l.URL ≠ "" →
      isHttpURL l.URL = false → rejectedNaming tc ("Links[" ++ toString i ++ "]" ++ ".URL")) ∧
    (∀ (tc : TestCase) (i : Nat) (fl : File), tc.Files[i]? = some fl → fl.URL ≠ "" →
      isHttpURL fl.URL = false → rejectedNaming tc ("Files[" ++ toString i ++ "]" ++ ".URL")) ∧
    (∀ (tc : TestCase) (i : Nat) (l : Link), tc.Links[i]? = some l → l.Title = "" →
      rejectedNaming tc ("Links[" ++ toString i ++ "]" ++ ".Title")) ∧
    (∀ (tc : TestCase) (i : Nat) (l : Link), tc.Links[i]? = some l → l.URL = "" →
      rejectedNaming tc ("Links[" ++ toString i ++ "]" ++ ".URL")) ∧
    (∀ (tc : TestCase) (i : Nat) (fl : File), tc.Files[i]? = some fl → fl.Name = "" →
      rejectedNaming tc ("Files[" ++ toString i ++ "]" ++ ".Name")) ∧
    (∀ (tc : TestCase) (i : Nat) (fl : File), tc.Files[i]? = some fl → fl.ID = "" →
      fl.URL = "" → rejectedNaming tc ("Files[" ++ toString i ++ "]" ++ ".ID")) :=
  ⟨reject_title_empty, reject_title_long, reject_folder_empty, reject_folder_slash,
   reject_priority, reject_tag_empty, reject_requirement_empty, reject_requirement_url,
   reject_link_url_scheme, reject_file_url_scheme, reject_link_title_missing,
   reject_link_url_missing, reject_file_name_missing, reject_file_both_missing⟩

theorem C3_witness : tcC3.Title = "" ∧ rejectedNaming tcC3 "Title" :=
  ⟨rfl, C3_rejection_set.1 tcC3 rfl⟩
